import Mathlib

/-!
Shallow embedding of the factordb-rust crate core (src/lib.rs, src/number.rs,
src/factor.rs, src/utils.rs).

BigInt (num-bigint) is embedded as Lean Int. JSON documents are embedded as an
inductive Json value tree; the relevant behaviour of the serde_json
deserializer (number classification into u64 / i64 / f64 visits, the
deserialize_any / deserialize_u64 / deserialize_str entry points) and of
num-bigint (string parsing, serde serialization as a sign tag plus a
little-endian u32-digit vector) is embedded faithfully from those libraries,
since the crate's decoding behaviour is defined through them.

The repository keeps two historical drafts of the same design: lib.rs (the
compiled crate root, which declares only mod utils) and the number.rs /
factor.rs pair.  The shared data model is embedded once; the view functions
that differ between the drafts live in namespaces LibRs and NumberRs.
-/

namespace FactorDb

/-- Embedding of a JSON value. Integer-valued number literals are carried as
Int, non-integral number literals as Rat (their exact decimal value; the
decoders under study reject every non-integral number without inspecting it). -/
inductive Json where
  | int (n : Int)
  | float (q : ℚ)
  | str (s : String)
  | bool (b : Bool)
  | arr (elems : List Json)
  | obj (fields : List (String × Json))
  | null

/-- Decode-error kinds produced by the serde machinery as used by this crate:
invalid_type (value of the wrong JSON type), invalid_value (right type, bad
content, e.g. a non-numeric string), invalid_length (wrong tuple arity),
unknown_variant (unrecognized enum tag), missing_field (absent struct field). -/
inductive DeError where
  | invalidType
  | invalidValue
  | invalidLength
  | unknownVariant
  | missingField
deriving DecidableEq, Repr

/-- num-bigint BigUint::from_str_radix, digit-normalization step at radix 10:
ASCII digits map to their value, underscores are skipped, anything else
(including letters, whose digit value is at least 10) is rejected. -/
def radix10Digits : List Char → Option (List Nat)
  | [] => some []
  | c :: cs =>
    if c = '_' then radix10Digits cs
    else if 48 ≤ c.toNat ∧ c.toNat ≤ 57 then
      match radix10Digits cs with
      | some ds => some ((c.toNat - 48) :: ds)
      | none => none
    else none

/-- Value of a little-endian-read (most significant first here) base-10 digit list. -/
def natOfDigits (ds : List Nat) : Nat :=
  ds.foldl (fun acc d => acc * 10 + d) 0

/-- num-bigint BigUint::from_str_radix sign handling: a single leading plus is
stripped, but only when it is not followed by another plus. -/
def stripPlus : List Char → List Char
  | '+' :: rest =>
    match rest with
    | '+' :: _ => '+' :: rest
    | _ => rest
  | cs => cs

/-- Embedding of num-bigint BigUint::from_str (from_str_radix at radix 10):
strip one leading plus, reject the empty string and a leading underscore, then
normalize the digits (underscores skipped) and fold up the value. -/
def bigUintFromStr (s : String) : Option Nat :=
  let cs := stripPlus s.toList
  match cs with
  | [] => none
  | c :: _ =>
    if c = '_' then none
    else
      match radix10Digits cs with
      | some ds => some (natOfDigits ds)
      | none => none

/-- Embedding of num-bigint BigInt::from_str (from_str_radix at radix 10): a
leading minus selects the negative sign, the rest parses as a BigUint. -/
def bigIntFromStr (s : String) : Option Int :=
  match s.toList with
  | '-' :: rest =>
    match bigUintFromStr (String.mk rest) with
    | some n => some (-(n : Int))
    | none => none
  | _ =>
    match bigUintFromStr s with
    | some n => some ((n : Int))
    | none => none

/-- The visitor of src/utils.rs: visit_i64 accepts any i64 and promotes it. -/
def DeserializeToBigIntVisitor.visit_i64 (v : Int) : Except DeError Int :=
  .ok v

/-- The visitor of src/utils.rs: visit_u64 accepts any u64 and promotes it. -/
def DeserializeToBigIntVisitor.visit_u64 (v : Int) : Except DeError Int :=
  .ok v

/-- The visitor of src/utils.rs: visit_str parses the string with
BigInt::from_str and reports invalid_value on parse failure. -/
def DeserializeToBigIntVisitor.visit_str (v : String) : Except DeError Int :=
  match bigIntFromStr v with
  | some n => .ok n
  | none => .error .invalidValue

/-- Upper bound of u64. -/
def u64Max : Int := 2 ^ 64 - 1

/-- Lower bound of i64. -/
def i64Min : Int := -(2 ^ 63)

/-- serde_json number classification applied to the visitor of src/utils.rs:
an integer literal in u64 range is delivered through visit_u64, a negative one
in i64 range through visit_i64, and anything else falls to visit_f64, which
the visitor does not implement, so serde's default rejects it as invalid_type. -/
def visitIntLiteral (n : Int) : Except DeError Int :=
  if 0 ≤ n then
    if n ≤ u64Max then DeserializeToBigIntVisitor.visit_u64 n
    else .error .invalidType
  else
    if i64Min ≤ n then DeserializeToBigIntVisitor.visit_i64 n
    else .error .invalidType

/-- Embedding of utils.rs deserialize_id: deserialize_any with the visitor.
serde_json dispatches on the actual JSON type; the visitor implements only the
i64/u64/str visits, so every other shape hits a default visit method and is
rejected as invalid_type. -/
def deserialize_id : Json → Except DeError Int
  | .int n => visitIntLiteral n
  | .str s => DeserializeToBigIntVisitor.visit_str s
  | _ => .error .invalidType

/-- Embedding of utils.rs deserialize_string_to_bigint: deserialize_str with
the visitor; serde_json delivers only a JSON string to visit_str and rejects
every other JSON type as invalid_type. -/
def deserialize_string_to_bigint : Json → Except DeError Int
  | .str s => DeserializeToBigIntVisitor.visit_str s
  | _ => .error .invalidType

/-- Embedding of utils.rs deserialize_u64_to_bigint: deserialize_u64 with the
visitor. serde_json routes every number literal through its classification
(so a negative literal in i64 range still reaches visit_i64) and rejects
non-number JSON types as invalid_type. -/
def deserialize_u64_to_bigint : Json → Except DeError Int
  | .int n => visitIntLiteral n
  | _ => .error .invalidType

/-- Embedding of the Factor tuple struct: field 0 is the base, field 1 the
exponent, named after the accessors base() and exponent(). -/
structure Factor where
  base : Int
  exponent : Int
deriving DecidableEq, Repr

/-- Embedding of the NumberStatus enum. -/
inductive NumberStatus where
  | NoFactorsKnown
  | FactorsKnown
  | FullyFactored
  | DefinitelyPrime
  | ProbablyPrime
  | Unknown
  | Unit
  | Zero
  | NotInDatabase
deriving DecidableEq, Repr

/-- Embedding of the Number struct: id, status, factors. -/
structure Number where
  id : Int
  status : NumberStatus
  factors : List Factor
deriving DecidableEq, Repr

/-- Wire tag of each NumberStatus variant, from the serde rename attributes;
Unit and Zero carry no rename and use the variant name itself. -/
def statusWireTag : NumberStatus → String
  | .NoFactorsKnown => "C"
  | .FactorsKnown => "CF"
  | .FullyFactored => "FF"
  | .DefinitelyPrime => "P"
  | .ProbablyPrime => "Prp"
  | .Unknown => "U"
  | .Unit => "Unit"
  | .Zero => "Zero"
  | .NotInDatabase => "N"

/-- Decode of a NumberStatus wire tag, from the serde rename/alias attributes:
the renamed tags, the extra alias PRP for ProbablyPrime, the bare variant
names Unit and Zero; any other tag is an unknown-variant decode error. -/
def decodeNumberStatus (tag : String) : Except DeError NumberStatus :=
  if tag = "C" then .ok .NoFactorsKnown
  else if tag = "CF" then .ok .FactorsKnown
  else if tag = "FF" then .ok .FullyFactored
  else if tag = "P" then .ok .DefinitelyPrime
  else if tag = "Prp" then .ok .ProbablyPrime
  else if tag = "PRP" then .ok .ProbablyPrime
  else if tag = "U" then .ok .Unknown
  else if tag = "Unit" then .ok .Unit
  else if tag = "Zero" then .ok .Zero
  else if tag = "N" then .ok .NotInDatabase
  else .error .unknownVariant

/-- serde decode of the externally tagged unit-variant enum NumberStatus: a
JSON string holding the tag; any other JSON type is invalid_type. -/
def decodeNumberStatusJson : Json → Except DeError NumberStatus
  | .str s => decodeNumberStatus s
  | _ => .error .invalidType

/-- serde derive decode of the Factor tuple struct: a JSON array of exactly
two elements, the first through deserialize_string_to_bigint, the second
through deserialize_u64_to_bigint; wrong arity is invalid_length, any other
JSON type invalid_type. -/
def decodeFactor : Json → Except DeError Factor
  | .arr [jb, je] =>
    match deserialize_string_to_bigint jb with
    | .error e => .error e
    | .ok b =>
      match deserialize_u64_to_bigint je with
      | .error e => .error e
      | .ok ex => .ok (Factor.mk b ex)
  | .arr _ => .error .invalidLength
  | _ => .error .invalidType

/-- Elementwise decode of a factor list, stopping at the first error
(serde's sequence visit). -/
def decodeFactorList : List Json → Except DeError (List Factor)
  | [] => .ok []
  | j :: js =>
    match decodeFactor j with
    | .error e => .error e
    | .ok f =>
      match decodeFactorList js with
      | .error e => .error e
      | .ok fs => .ok (f :: fs)

/-- serde decode of Vec of Factor: a JSON array, elementwise decodeFactor. -/
def decodeFactorVec : Json → Except DeError (List Factor)
  | .arr elems => decodeFactorList elems
  | _ => .error .invalidType

/-- First value bound to a key in a JSON object's field list (serde map access). -/
def getField (fields : List (String × Json)) (key : String) : Option Json :=
  match fields with
  | [] => none
  | (k, v) :: rest => if k = key then some v else getField rest key

/-- serde derive decode of the Number struct: JSON object with fields id
(through deserialize_id), status, factors; a missing field is missing_field,
any non-object JSON type invalid_type. -/
def decodeNumber : Json → Except DeError Number
  | .obj fields =>
    match getField fields "id", getField fields "status", getField fields "factors" with
    | some jid, some jstatus, some jfactors =>
      match deserialize_id jid with
      | .error e => .error e
      | .ok i =>
        match decodeNumberStatusJson jstatus with
        | .error e => .error e
        | .ok st =>
          match decodeFactorVec jfactors with
          | .error e => .error e
          | .ok fs => .ok (Number.mk i st fs)
    | _, _, _ => .error .missingField
  | _ => .error .invalidType

/-- num-bigint serde serialization of a Sign: the derived encoding of the
enum Minus / NoSign / Plus, as a JSON string; NoSign is the sign of zero. -/
def serializeSign (n : Int) : Json :=
  .str (if n < 0 then "Minus" else if n = 0 then "NoSign" else "Plus")

/-- Little-endian base-2^32 digit list of a natural number, empty for zero
(num-bigint BigUint::to_u32_digits). The first argument is fuel bounding the
iteration count; since each step divides the value by 2^32, fuel equal to the
value itself always suffices, so the exhausted-fuel branch is unreachable
when called through u32Digits. -/
def u32DigitsAux : Nat → Nat → List Nat
  | _, 0 => []
  | 0, _ => []
  | fuel + 1, n => n % 2 ^ 32 :: u32DigitsAux fuel (n / 2 ^ 32)

/-- Little-endian base-2^32 digit list (num-bigint BigUint::to_u32_digits). -/
def u32Digits (n : Nat) : List Nat :=
  u32DigitsAux n n

/-- num-bigint serde serialization of a BigInt: the pair of its sign and its
magnitude, the magnitude being the u32 digit vector; in JSON a two-element
array. This is num-bigint's fixed portable format, not the FactorDB wire
format. -/
def serializeBigInt (n : Int) : Json :=
  .arr [serializeSign n, .arr ((u32Digits n.natAbs).map (fun d => Json.int d))]

/-- Derived serde serialization of the Factor tuple struct: a two-element JSON
array of the default BigInt serializations (the deserialize_with attributes
have no serialize_with counterpart, so serialization uses BigInt's own format). -/
def serializeFactor (f : Factor) : Json :=
  .arr [serializeBigInt f.base, serializeBigInt f.exponent]

/-- Derived serde serialization of NumberStatus: the wire tag as a JSON string. -/
def serializeStatus (s : NumberStatus) : Json :=
  .str (statusWireTag s)

/-- Derived serde serialization of the Number struct: a JSON object with the
three fields in declaration order; the id field likewise uses BigInt's own
serde format, since deserialize_with does not affect serialization. -/
def serializeNumber (n : Number) : Json :=
  .obj [("id", serializeBigInt n.id), ("status", serializeStatus n.status),
    ("factors", .arr (n.factors.map serializeFactor))]

/-! ## Iterators (src/factor.rs Iter / IntoIter)

lib.rs declares the textually identical pair FactorIter / FactorIntoIter;
the embedding below covers both spellings. -/

/-- State of the borrowed iterator Iter: the borrowed base and the remaining
exponent count (a BigInt, cloned from the Factor at construction). -/
structure Iter where
  base : Int
  remaining_exp : Int
deriving DecidableEq, Repr

/-- Factor::iter constructs a fresh Iter from the unchanged Factor: it borrows
the base and clones the exponent. -/
def Factor.iter (f : Factor) : Iter :=
  ⟨f.base, f.exponent⟩

/-- Iter::next: while remaining_exp > 0, decrement it and yield the base;
otherwise yield nothing. -/
def Iter.next (s : Iter) : Option (Int × Iter) :=
  if s.remaining_exp > 0 then some (s.base, ⟨s.base, s.remaining_exp - 1⟩)
  else none

/-- Full drain of an Iter: the list of every element Iter::next yields until
it yields none. Total because the positive remaining count strictly decreases. -/
def Iter.toList (s : Iter) : List Int :=
  if h : s.remaining_exp > 0 then s.base :: Iter.toList ⟨s.base, s.remaining_exp - 1⟩
  else []
termination_by s.remaining_exp.toNat
decreasing_by
  omega

/-- State of the owning iterator IntoIter: the owned base and the remaining
exponent count. -/
structure IntoIter where
  base : Int
  remaining_exp : Int
deriving DecidableEq, Repr

/-- Factor::into_iter moves both fields of the Factor into an IntoIter. -/
def Factor.intoIter (f : Factor) : IntoIter :=
  ⟨f.base, f.exponent⟩

/-- IntoIter::next: while remaining_exp > 0, decrement it and yield a clone of
the base; otherwise yield nothing (clone is the identity on values here). -/
def IntoIter.next (s : IntoIter) : Option (Int × IntoIter) :=
  if s.remaining_exp > 0 then some (s.base, ⟨s.base, s.remaining_exp - 1⟩)
  else none

/-- Full drain of an IntoIter, like Iter.toList. -/
def IntoIter.toList (s : IntoIter) : List Int :=
  if h : s.remaining_exp > 0 then s.base :: IntoIter.toList ⟨s.base, s.remaining_exp - 1⟩
  else []
termination_by s.remaining_exp.toNat
decreasing_by
  omega

namespace LibRs

/-- Number::is_prime (lib.rs): status equals DefinitelyPrime or ProbablyPrime. -/
def is_prime (n : Number) : Bool :=
  n.status = NumberStatus.DefinitelyPrime ∨ n.status = NumberStatus.ProbablyPrime

/-- Number::is_definitely_prime (lib.rs): status equals DefinitelyPrime. -/
def is_definitely_prime (n : Number) : Bool :=
  n.status = NumberStatus.DefinitelyPrime

/-- Inner while loop of Number::factor_list (lib.rs): starting from counter e,
push the base while e < exponent, incrementing a BigInt counter. -/
def factorListPush (base exponent e : Int) (out : List Int) : List Int :=
  if _h : e < exponent then factorListPush base exponent (e + 1) (out ++ [base])
  else out
termination_by (exponent - e).toNat
decreasing_by omega

/-- Number::factor_list (lib.rs): for each factor in order, run the inner
while loop from a zero counter, accumulating into one output vector. -/
def factor_list (n : Number) : List Int :=
  n.factors.foldl (fun out f => factorListPush f.base f.exponent 0 out) []

/-- Number::unique_factors (lib.rs): insert every factor's base into a
HashSet, embedded as a Finset. -/
def unique_factors (n : Number) : Finset Int :=
  n.factors.foldl (fun out f => insert f.base out) ∅

end LibRs

namespace NumberRs

/-- Number::unique_factors (number.rs): map every factor to its base and
collect into a Vec, with no deduplication step. -/
def unique_factors (n : Number) : List Int :=
  n.factors.map Factor.base

/-- Number::into_unique_factors (number.rs): collect every factor's base into
a Vec and sort_unstable it ascending (embedded as insertion sort, which agrees
with any correct sort on integers), with no deduplication step. -/
def into_unique_factors (n : Number) : List Int :=
  List.insertionSort (fun a b => a ≤ b) (n.factors.map Factor.base)

/-- Number::into_factors_flattened (number.rs): flatten every factor through
its owning iterator, then sort_unstable ascending. -/
def into_factors_flattened (n : Number) : List Int :=
  List.insertionSort (fun a b => a ≤ b) (n.factors.map (fun f => (Factor.intoIter f).toList)).flatten

end NumberRs

/-! ## Sample values -/

/-- Number of the end-to-end scenario: id 15, fully factored, factors 3^1 and 5^1. -/
def sampleFifteen : Number :=
  Number.mk 15 .FullyFactored [Factor.mk 3 1, Factor.mk 5 1]

/-- Wire JSON of the end-to-end scenario. -/
def sampleFifteenJson : Json :=
  Json.obj [("id", Json.int 15), ("status", Json.str "FF"),
    ("factors", Json.arr [Json.arr [Json.str "3", Json.int 1],
      Json.arr [Json.str "5", Json.int 1]])]

/-- Number whose factor list repeats a base, exercising the deduplication
behaviour of the unique-factor views. -/
def sampleDupBase : Number :=
  Number.mk 4 .FullyFactored [Factor.mk 2 1, Factor.mk 2 1]

/-! ## Characterization lemmas -/

/-- Iter.toList is exactly the drain of Iter.next. -/
theorem iterToList_eq_next (s : Iter) :
    Iter.toList s = (match Iter.next s with
      | some (x, s1) => x :: Iter.toList s1
      | none => []) := by
  rw [Iter.toList, Iter.next]
  by_cases h : s.remaining_exp > 0
  · rw [dif_pos h, if_pos h]
  · rw [dif_neg h, if_neg h]

/-- IntoIter.toList is exactly the drain of IntoIter.next. -/
theorem intoIterToList_eq_next (s : IntoIter) :
    IntoIter.toList s = (match IntoIter.next s with
      | some (x, s1) => x :: IntoIter.toList s1
      | none => []) := by
  rw [IntoIter.toList, IntoIter.next]
  by_cases h : s.remaining_exp > 0
  · rw [dif_pos h, if_pos h]
  · rw [dif_neg h, if_neg h]

/-- The borrowed iterator drains to the base repeated as many times as the
remaining exponent is positive. -/
theorem iterToList_replicate (s : Iter) :
    Iter.toList s = List.replicate s.remaining_exp.toNat s.base := by
  generalize hk : s.remaining_exp.toNat = k
  induction k generalizing s with
  | zero =>
    rw [Iter.toList, dif_neg (by omega)]
    simp
  | succ k ih =>
    rw [Iter.toList, dif_pos (by omega)]
    rw [ih ⟨s.base, s.remaining_exp - 1⟩ (by simp; omega)]
    simp [List.replicate_succ]

/-- The owning iterator drains to the base repeated as many times as the
remaining exponent is positive. -/
theorem intoIterToList_replicate (s : IntoIter) :
    IntoIter.toList s = List.replicate s.remaining_exp.toNat s.base := by
  generalize hk : s.remaining_exp.toNat = k
  induction k generalizing s with
  | zero =>
    rw [IntoIter.toList, dif_neg (by omega)]
    simp
  | succ k ih =>
    rw [IntoIter.toList, dif_pos (by omega)]
    rw [ih ⟨s.base, s.remaining_exp - 1⟩ (by simp; omega)]
    simp [List.replicate_succ]

/-- The inner while loop of factor_list appends the base repeated once per
remaining counter step. -/
theorem LibRs.factorListPush_eq (base exponent : Int) :
    ∀ (e : Int) (out : List Int),
      LibRs.factorListPush base exponent e out
        = out ++ List.replicate (exponent - e).toNat base := by
  intro e out
  generalize hk : (exponent - e).toNat = k
  induction k generalizing e out with
  | zero =>
    rw [LibRs.factorListPush, dif_neg (by omega)]
    simp
  | succ k ih =>
    rw [LibRs.factorListPush, dif_pos (by omega)]
    rw [ih (e + 1) (out ++ [base]) (by omega)]
    simp [List.replicate_succ]

/-- factor_list is the concatenation of each factor's base repeated
exponent-many times (clamped at zero), in input order. -/
theorem LibRs.factor_list_eq (n : Number) :
    LibRs.factor_list n
      = (n.factors.map (fun f => List.replicate f.exponent.toNat f.base)).flatten := by
  unfold LibRs.factor_list
  suffices h : ∀ (l : List Factor) (acc : List Int),
      l.foldl (fun out f => LibRs.factorListPush f.base f.exponent 0 out) acc
        = acc ++ (l.map fun f => List.replicate f.exponent.toNat f.base).flatten by
    simpa using h n.factors []
  intro l
  induction l with
  | nil => intro acc; simp
  | cons f fs ih =>
    intro acc
    rw [List.foldl_cons, ih, LibRs.factorListPush_eq]
    simp

/-- Membership in the HashSet-backed unique_factors is exactly being the base
of some factor. -/
theorem LibRs.unique_factors_mem (n : Number) (x : Int) :
    x ∈ LibRs.unique_factors n ↔ ∃ f ∈ n.factors, f.base = x := by
  unfold LibRs.unique_factors
  suffices h : ∀ (l : List Factor) (acc : Finset Int),
      (x ∈ l.foldl (fun out f => insert f.base out) acc ↔
        x ∈ acc ∨ ∃ f ∈ l, f.base = x) by
    simpa using h n.factors ∅
  intro l
  induction l with
  | nil => simp
  | cons f fs ih =>
    intro acc
    simp only [List.foldl_cons, ih, Finset.mem_insert, List.mem_cons]
    constructor
    · rintro (⟨h1 | h1⟩ | ⟨g, hg, hb⟩)
      · exact Or.inr ⟨f, Or.inl rfl, h1.symm⟩
      · exact Or.inl h1
      · exact Or.inr ⟨g, Or.inr hg, hb⟩
    · rintro (h1 | ⟨g, hg | hg, hb⟩)
      · exact Or.inl (Or.inr h1)
      · exact Or.inl (Or.inl (hg ▸ hb.symm))
      · exact Or.inr ⟨g, hg, hb⟩

/-- The owned flattened view is a permutation of the concatenation of each
factor's base repeated exponent-many times. -/
theorem NumberRs.into_factors_flattened_perm (n : Number) :
    (NumberRs.into_factors_flattened n).Perm
      ((n.factors.map (fun f => List.replicate f.exponent.toNat f.base)).flatten) := by
  unfold NumberRs.into_factors_flattened
  have h1 : n.factors.map (fun f => (Factor.intoIter f).toList)
      = n.factors.map (fun f => List.replicate f.exponent.toNat f.base) := by
    apply List.map_congr_left
    intro f _
    rw [intoIterToList_replicate]
    rfl
  rw [h1]
  exact List.perm_insertionSort _ _

/-- Length of the replicate-flatten form: the sum of the clamped exponents. -/
theorem length_flatten_replicate (l : List Factor) :
    ((l.map (fun f => List.replicate f.exponent.toNat f.base)).flatten).length
      = (l.map (fun f => f.exponent.toNat)).sum := by
  induction l with
  | nil => rfl
  | cons f fs ih => simp [ih]

/-- With every exponent non-negative, the clamped exponent sum is the exponent
sum. -/
theorem sum_toNat_exponents (l : List Factor) (h : ∀ f ∈ l, 0 ≤ f.exponent) :
    (((l.map (fun f => f.exponent.toNat)).sum : Nat) : Int)
      = (l.map Factor.exponent).sum := by
  induction l with
  | nil => rfl
  | cons f fs ih =>
    have h1 : 0 ≤ f.exponent := h f (by simp)
    have h2 := ih (fun g hg => h g (by simp [hg]))
    simp only [List.map_cons, List.sum_cons, Nat.cast_add]
    omega

/-! ## Claim theorems -/

/-- C1 counterexample: on a Number whose factor list repeats the base 2, the
Vec-returning unique_factors of number.rs and its owning variant
into_unique_factors both return the base twice, so the view is not
duplicate-free as the claim states. -/
theorem C1_counterexample :
    NumberRs.unique_factors sampleDupBase = [2, 2] ∧
    NumberRs.into_unique_factors sampleDupBase = [2, 2] ∧
    ¬ (List.Nodup ([2, 2] : List Int)) :=
  ⟨rfl, rfl, by decide⟩

/-- C1 (amended): provided the Number's factor list has pairwise-distinct
bases, every unique-factor view returns exactly the distinct bases with no
duplicate values: the HashSet variant of lib.rs (whose membership is exactly
being a base of a listed Factor), the Vec variant of number.rs (whose list is
duplicate-free with the same membership), and the owning sorted variant
into_unique_factors (likewise). Without that hypothesis the two Vec variants
repeat a repeated base, as the counterexample shows. -/
theorem C1_unique_factors_distinct (n : Number)
    (h : (n.factors.map Factor.base).Nodup) :
    (∀ x : Int, x ∈ LibRs.unique_factors n ↔ ∃ f ∈ n.factors, f.base = x) ∧
    (NumberRs.unique_factors n).Nodup ∧
    (∀ x : Int, x ∈ NumberRs.unique_factors n ↔ ∃ f ∈ n.factors, f.base = x) ∧
    (NumberRs.into_unique_factors n).Nodup ∧
    (∀ x : Int, x ∈ NumberRs.into_unique_factors n ↔ ∃ f ∈ n.factors, f.base = x) := by
  have hperm : (NumberRs.into_unique_factors n).Perm (n.factors.map Factor.base) :=
    List.perm_insertionSort _ _
  refine ⟨fun x => LibRs.unique_factors_mem n x, h, ?_, hperm.nodup_iff.mpr h, ?_⟩
  · intro x
    simp [NumberRs.unique_factors]
  · intro x
    rw [hperm.mem_iff]
    simp

/-- C1 witness: the amended statement holds on the end-to-end sample, whose
bases 3 and 5 are distinct. -/
theorem C1_unique_factors_distinct_witness :
    (sampleFifteen.factors.map Factor.base).Nodup ∧
    ((∀ x : Int, x ∈ LibRs.unique_factors sampleFifteen ↔
        ∃ f ∈ sampleFifteen.factors, f.base = x) ∧
      (NumberRs.unique_factors sampleFifteen).Nodup ∧
      (∀ x : Int, x ∈ NumberRs.unique_factors sampleFifteen ↔
        ∃ f ∈ sampleFifteen.factors, f.base = x) ∧
      (NumberRs.into_unique_factors sampleFifteen).Nodup ∧
      (∀ x : Int, x ∈ NumberRs.into_unique_factors sampleFifteen ↔
        ∃ f ∈ sampleFifteen.factors, f.base = x)) :=
  ⟨by decide, C1_unique_factors_distinct sampleFifteen (by decide)⟩

/-- C2 (code bug evidence): decoding the exponent field accepts the negative
JSON literal -1 and produces the big integer -1, because serde_json routes a
negative in-range literal to the visitor's visit_i64, which accepts any i64;
so a whole factor pair with a negative exponent decodes successfully. The
promotion half of the claim does hold: non-negative literals up to the u64
maximum decode to the same value with no truncation at the 32- or 64-bit
boundary. -/
theorem C2_negative_exponent_decode :
    deserialize_u64_to_bigint (Json.int (-1)) = Except.ok (-1) ∧
    decodeFactor (Json.arr [Json.str "3", Json.int (-1)]) = Except.ok (Factor.mk 3 (-1)) ∧
    deserialize_u64_to_bigint (Json.int (2 ^ 32 + 5)) = Except.ok (2 ^ 32 + 5) ∧
    deserialize_u64_to_bigint (Json.int (2 ^ 64 - 1)) = Except.ok (2 ^ 64 - 1) :=
  ⟨rfl, rfl, rfl, rfl⟩

/-- C3 counterexample: serializing the end-to-end sample Number and decoding
the result does not return the original Number (the decode fails instead). -/
theorem C3_roundtrip_counterexample :
    decodeNumber (serializeNumber sampleFifteen) ≠ Except.ok sampleFifteen := by
  have h : decodeNumber (serializeNumber sampleFifteen)
      = Except.error DeError.invalidType := rfl
  rw [h]
  intro hcontra
  exact Except.noConfusion hcontra

/-- C3 (amended): encode is implemented (derived Serialize) but is not a
right inverse of decode: the id field serializes in num-bigint's own format (a
sign tag with a u32-digit array, not the wire format's integer-or-string), and
deserialize_id rejects a JSON array, so decoding the serialization of every
Number fails with an invalid-type decode error instead of yielding an equal
Number. -/
theorem C3_roundtrip_fails (num : Number) :
    decodeNumber (serializeNumber num) = Except.error DeError.invalidType := by
  simp [serializeNumber, decodeNumber, getField, serializeBigInt, deserialize_id]

/-- C4: the id decoder accepts the JSON integer 42 and the JSON string of 42
with the same resulting value, rejects a non-numeric string with an
invalid-value error, and rejects a non-integral number with an invalid-type
error. -/
theorem C4_id_decode :
    deserialize_id (Json.int 42) = Except.ok 42 ∧
    deserialize_id (Json.str "42") = Except.ok 42 ∧
    deserialize_id (Json.str "abc") = Except.error DeError.invalidValue ∧
    deserialize_id (Json.float (4.2 : ℚ)) = Except.error DeError.invalidType :=
  ⟨rfl, rfl, rfl, rfl⟩

/-- C5: for a non-negative exponent, draining the borrowed expansion iterator
yields the base repeated exactly exponent times, so the element count is the
exponent and a zero exponent yields nothing. Restartability is by
construction: Factor.iter is a pure function of the unchanged Factor, so each
call builds the same fresh Iter state. -/
theorem C5_expand (f : Factor) (h : 0 ≤ f.exponent) :
    (Factor.iter f).toList = List.replicate f.exponent.toNat f.base ∧
    (((Factor.iter f).toList.length : Nat) : Int) = f.exponent ∧
    (f.exponent = 0 → (Factor.iter f).toList = []) := by
  have h1 : (Factor.iter f).toList = List.replicate f.exponent.toNat f.base := by
    rw [iterToList_replicate]
    rfl
  refine ⟨h1, ?_, ?_⟩
  · rw [h1, List.length_replicate]
    omega
  · intro h0
    rw [h1, h0]
    rfl

/-- C5 witness: the crate's own test value, base 10 with exponent 6. -/
theorem C5_expand_witness :
    (0 : Int) ≤ (Factor.mk 10 6).exponent ∧
    ((Factor.iter (Factor.mk 10 6)).toList
        = List.replicate (Factor.mk 10 6).exponent.toNat (Factor.mk 10 6).base ∧
      (((Factor.iter (Factor.mk 10 6)).toList.length : Nat) : Int) = (Factor.mk 10 6).exponent ∧
      ((Factor.mk 10 6).exponent = 0 → (Factor.iter (Factor.mk 10 6)).toList = [])) :=
  ⟨by decide, C5_expand (Factor.mk 10 6) (by decide)⟩

/-- C6: when every exponent is non-negative, the element count of the
flattened view equals the sum of the exponents, both for the borrowed
factor_list of lib.rs and for the owning into_factors_flattened of number.rs. -/
theorem C6_flattened_count (n : Number) (h : ∀ f ∈ n.factors, 0 ≤ f.exponent) :
    (((LibRs.factor_list n).length : Nat) : Int) = (n.factors.map Factor.exponent).sum ∧
    (((NumberRs.into_factors_flattened n).length : Nat) : Int)
      = (n.factors.map Factor.exponent).sum := by
  have hsum := sum_toNat_exponents n.factors h
  constructor
  · rw [LibRs.factor_list_eq, length_flatten_replicate, hsum]
  · rw [(NumberRs.into_factors_flattened_perm n).length_eq, length_flatten_replicate, hsum]

/-- C6 witness: the end-to-end sample has exponent sum 2 and both flattened
views have two elements. -/
theorem C6_flattened_count_witness :
    (∀ f ∈ sampleFifteen.factors, 0 ≤ f.exponent) ∧
    ((((LibRs.factor_list sampleFifteen).length : Nat) : Int)
        = (sampleFifteen.factors.map Factor.exponent).sum ∧
      (((NumberRs.into_factors_flattened sampleFifteen).length : Nat) : Int)
        = (sampleFifteen.factors.map Factor.exponent).sum) :=
  ⟨by decide, C6_flattened_count sampleFifteen (by decide)⟩

/-- C7: the status tags Prp and PRP both decode to ProbablyPrime, and every
tag outside the ten recognized wire tags fails decode with an unknown-variant
error rather than defaulting to any variant. -/
theorem C7_status_decode :
    decodeNumberStatus "Prp" = Except.ok NumberStatus.ProbablyPrime ∧
    decodeNumberStatus "PRP" = Except.ok NumberStatus.ProbablyPrime ∧
    (∀ tag : String,
      tag ∉ (["C", "CF", "FF", "P", "Prp", "PRP", "U", "Unit", "Zero", "N"] : List String) →
      decodeNumberStatus tag = Except.error DeError.unknownVariant) := by
  refine ⟨rfl, rfl, ?_⟩
  intro tag h
  simp only [List.mem_cons, List.not_mem_nil, or_false, not_or] at h
  obtain ⟨h1, h2, h3, h4, h5, h6, h7, h8, h9, h10⟩ := h
  simp [decodeNumberStatus, h1, h2, h3, h4, h5, h6, h7, h8, h9, h10]

/-- C7 witness: the unrecognized tag XX fails decode. -/
theorem C7_status_decode_witness :
    ("XX" : String) ∉ (["C", "CF", "FF", "P", "Prp", "PRP", "U", "Unit", "Zero", "N"] : List String) ∧
    decodeNumberStatus "XX" = Except.error DeError.unknownVariant :=
  ⟨by decide, (C7_status_decode).2.2 "XX" (by decide)⟩

/-- C8: the wire object with id 15, status FF and factors 3^1, 5^1 decodes to
the sample Number, which is not classified prime, whose borrowed flattened
view is the list 3, 5, and whose HashSet of unique factors is exactly the two
bases 3 and 5. -/
theorem C8_end_to_end :
    decodeNumber sampleFifteenJson = Except.ok sampleFifteen ∧
    LibRs.is_prime sampleFifteen = false ∧
    LibRs.factor_list sampleFifteen = [3, 5] ∧
    LibRs.unique_factors sampleFifteen = ({3, 5} : Finset Int) := by
  refine ⟨rfl, rfl, ?_, ?_⟩
  · rw [LibRs.factor_list_eq]
    rfl
  · decide

/-- C9: for every Factor, the borrowed iterator and the owning iterator drain
to the same list of values, element for element. -/
theorem C9_iter_into_iter_agree (f : Factor) :
    (Factor.iter f).toList = (Factor.intoIter f).toList := by
  rw [iterToList_replicate, intoIterToList_replicate]
  rfl

/-- C10: both expansion iterators are total and finite for every integer
exponent: the drain has exactly max(exponent, 0) elements, so a negative
exponent yields the empty sequence rather than an error or divergence. The
totality itself is witnessed by Iter.toList and IntoIter.toList being total
Lean functions, whose termination measure is the strictly decreasing positive
remaining count. -/
theorem C10_iterator_total (f : Factor) :
    (((Factor.iter f).toList.length : Nat) : Int) = max f.exponent 0 ∧
    (((Factor.intoIter f).toList.length : Nat) : Int) = max f.exponent 0 ∧
    (f.exponent < 0 →
      (Factor.iter f).toList = [] ∧ (Factor.intoIter f).toList = []) := by
  have h1 := iterToList_replicate (Factor.iter f)
  have h2 := intoIterToList_replicate (Factor.intoIter f)
  refine ⟨?_, ?_, fun hneg => ⟨?_, ?_⟩⟩
  · rw [h1, List.length_replicate]
    exact Int.toNat_eq_max f.exponent
  · rw [h2, List.length_replicate]
    exact Int.toNat_eq_max f.exponent
  · rw [h1]
    have h0 : (Factor.iter f).remaining_exp.toNat = 0 := by
      simp only [Factor.iter]
      omega
    rw [h0]
    rfl
  · rw [h2]
    have h0 : (Factor.intoIter f).remaining_exp.toNat = 0 := by
      simp only [Factor.intoIter]
      omega
    rw [h0]
    rfl

/-- C10 witness: a negative exponent yields the empty drain. -/
theorem C10_iterator_total_witness :
    (Factor.mk 2 (-3)).exponent < 0 ∧
    ((Factor.iter (Factor.mk 2 (-3))).toList = [] ∧
      (Factor.intoIter (Factor.mk 2 (-3))).toList = []) :=
  ⟨by decide, (C10_iterator_total (Factor.mk 2 (-3))).2.2 (by decide)⟩

end FactorDb
